import Mathlib

/-!
Shallow embedding of the ebook-tracker backend (server.js, models/Book.js,
middleware/auth.js): a CRUD API over user-owned Book records with embedded
vocabulary and note collections, reading-progress tracking, a PDF upload
pipeline, and password-based login.

Modelling conventions:
- MongoDB ObjectIds are modelled as natural numbers; a raw route parameter
  is `Option ℕ` where `none` stands for a string rejected by
  `mongoose.Types.ObjectId.isValid` and `some n` for a valid id.
- The Book collection is a `List Book`; `Book.findOne (with id and owner)` is
  a list search, `save` replaces the document with the matching id, and
  `findByIdAndDelete` removes it.
- Request-body field values are `JSValue` (the JSON value shapes express.json
  can deliver, plus `undef` for an absent field); the JS `Number()` coercion
  is modelled for numbers, booleans, null, undefined, and strings covering
  decimal literals with fraction and exponent parts as well as the hex,
  binary and octal radix prefixes; non-numeric string forms coerce to
  `none`, i.e. NaN, and arithmetic is exact rational.
- External effects (pdf parsing, Cloudinary upload/destroy) enter as explicit
  outcome parameters; bcrypt comparison enters as a function parameter.
- JS `Math.round` on a non-negative argument is floor(x + 1/2), modelled
  exactly on ℚ.
-/

namespace EbookTracker

/-- JSON-decodable request-body value (plus `undef` for an absent field). -/
inductive JSValue where
  | num (q : ℚ)
  | str (s : String)
  | bool (b : Bool)
  | null
  | undef
deriving DecidableEq

/-- Whitespace trim, as JS `String.prototype.trim`, computed on the
character list so that it reduces definitionally. -/
def strTrim (s : String) : String :=
  ⟨((s.data.dropWhile Char.isWhitespace).reverse.dropWhile Char.isWhitespace).reverse⟩

/-- Lower-casing, as JS `String.prototype.toLowerCase` on ASCII data. -/
def strLower (s : String) : String :=
  ⟨s.data.map Char.toLower⟩

/-- Accumulator pass of `digitsToNat`; fails on any non-digit character. -/
def digitsToNatAux : ℕ → List Char → Option ℕ
  | acc, [] => some acc
  | acc, c :: cs =>
      if c.isDigit then digitsToNatAux (10 * acc + (c.toNat - 48)) cs else none

/-- Value of a nonempty all-digit character sequence, `none` otherwise. -/
def digitsToNat (cs : List Char) : Option ℕ :=
  match cs with
  | [] => none
  | _ :: _ => digitsToNatAux 0 cs

/-- Optionally signed exponent digits after the `e` of a decimal literal;
`none` when the digits are missing or malformed. -/
def parseExponentChars : List Char → Option ℤ
  | '+' :: cs => (digitsToNat cs).map (fun n => (n : ℤ))
  | '-' :: cs => (digitsToNat cs).map (fun n => -(n : ℤ))
  | cs => (digitsToNat cs).map (fun n => (n : ℤ))

/-- Apply an optional exponent suffix to a parsed mantissa: an empty
remainder keeps the mantissa, an `e` or `E` scales it by the signed power
of ten, anything else is not a number. -/
def applyExponent (m : ℚ) : List Char → Option ℚ
  | [] => some m
  | c :: rest =>
      if c = 'e' ∨ c = 'E' then
        (parseExponentChars rest).map (fun ex => m * (10 : ℚ) ^ ex)
      else none

/-- Unsigned decimal literal — digits with an optional fractional part and
an optional exponent part — as accepted by the JS `Number()` string
coercion (so that for example 1e3 is 1000 and 100e-2 is 1). -/
def parseDecimalChars (cs : List Char) : Option ℚ :=
  let intPart := cs.takeWhile Char.isDigit
  let afterInt := cs.dropWhile Char.isDigit
  match afterInt with
  | '.' :: rest2 =>
      let fracPart := rest2.takeWhile Char.isDigit
      let afterFrac := rest2.dropWhile Char.isDigit
      if intPart.isEmpty && fracPart.isEmpty then none
      else
        applyExponent ((((digitsToNat intPart).getD 0 : ℕ) : ℚ)
          + (((digitsToNat fracPart).getD 0 : ℕ) : ℚ) / (10 : ℚ) ^ fracPart.length)
          afterFrac
  | _ =>
      if intPart.isEmpty then none
      else applyExponent (((digitsToNat intPart).getD 0 : ℕ) : ℚ) afterInt

/-- Value of a single character as a digit up to base 16, `none` for
anything else. -/
def hexDigitVal (c : Char) : Option ℕ :=
  if c.isDigit then some (c.toNat - 48)
  else if 'a' ≤ c ∧ c ≤ 'f' then some (c.toNat - 87)
  else if 'A' ≤ c ∧ c ≤ 'F' then some (c.toNat - 55)
  else none

/-- Accumulator pass of `radixDigits`; fails on a digit at or above the
radix or on any non-digit character. -/
def radixDigitsAux (radix : ℕ) : ℕ → List Char → Option ℕ
  | acc, [] => some acc
  | acc, c :: cs =>
      match hexDigitVal c with
      | some d => if d < radix then radixDigitsAux radix (radix * acc + d) cs else none
      | none => none

/-- Value of a nonempty digit sequence in the given radix, as read after a
JS `0x`, `0b` or `0o` prefix; `none` otherwise. -/
def radixDigits (radix : ℕ) (cs : List Char) : Option ℕ :=
  match cs with
  | [] => none
  | _ :: _ => radixDigitsAux radix 0 cs

/-- JS `Number()` on a string: trimmed empty string is 0; a `0x`, `0b` or
`0o` prefix (either case) reads an unsigned integer in that radix (so
0x10 is 16); otherwise an optionally signed decimal literal with optional
fraction and exponent; anything else is NaN (`none`). A sign before a
radix prefix is NaN, as in JS. Arithmetic is exact rational, so double
rounding and overflow are not modelled; an Infinity-valued string maps to
`none`, which agrees with the program at the `parsePage` boundary since
`Number.isInteger` rejects Infinity exactly as it rejects NaN. -/
def jsStringToNumber (s : String) : Option ℚ :=
  match (strTrim s).data with
  | [] => some 0
  | '0' :: c :: cs =>
      if c = 'x' ∨ c = 'X' then (radixDigits 16 cs).map (fun n => (n : ℚ))
      else if c = 'b' ∨ c = 'B' then (radixDigits 2 cs).map (fun n => (n : ℚ))
      else if c = 'o' ∨ c = 'O' then (radixDigits 8 cs).map (fun n => (n : ℚ))
      else parseDecimalChars ('0' :: c :: cs)
  | '+' :: cs => parseDecimalChars cs
  | '-' :: cs => (parseDecimalChars cs).map (fun q => -q)
  | cs => parseDecimalChars cs

/-- JS `Number()` coercion of a request-body value; `none` is NaN. -/
def jsToNumber : JSValue → Option ℚ
  | .num q => some q
  | .str s => jsStringToNumber s
  | .bool b => some (if b then 1 else 0)
  | .null => some 0
  | .undef => none

/-- Source `parsePage`: `Number(value)` followed by `Number.isInteger`;
returns the integer or `null`. -/
def parsePage (v : JSValue) : Option ℤ :=
  match jsToNumber v with
  | none => none
  | some q => if q.den = 1 then some q.num else none

/-- Source `parseNonEmptyString`: non-strings are `null`; strings are
trimmed and the empty result is `null`. -/
def parseNonEmptyString (v : JSValue) : Option String :=
  match v with
  | .str s =>
      let t := strTrim s
      if t.data.isEmpty then none else some t
  | _ => none

/-- Embedded vocabulary entry of a Book (`word`, `definition`). -/
structure VocabEntry where
  id : ℕ
  word : String
  definition : String
deriving DecidableEq

/-- Embedded note of a Book (`title`, `content`, `createdAt`). -/
structure Note where
  id : ℕ
  title : String
  content : String
  createdAt : ℕ
deriving DecidableEq

/-- Book document of the Mongo `books` collection. -/
structure Book where
  id : ℕ
  title : String
  pdfUrl : String
  cloudinaryId : String
  totalPages : ℕ
  currentPage : ℕ
  vocabulary : List VocabEntry
  notes : List Note
  owner : ℕ
  createdAt : ℕ
deriving DecidableEq

/-- JS `Math.round` on a non-negative rational: floor of x + 1/2. -/
def jsRound (q : ℚ) : ℤ := (q + 1/2).floor

/-- The `progressPercentage` virtual of the Book schema:
0 when `totalPages` is 0, else `Math.round((currentPage / totalPages) * 100)`. -/
def progressPercentage (b : Book) : ℤ :=
  if b.totalPages = 0 then 0
  else jsRound ((b.currentPage : ℚ) / (b.totalPages : ℚ) * 100)

/-- Owner-scoped lookup `Book.findOne ` with the id and owner filter —
the ownership gate shared by every protected book route. -/
def findOneByIdOwner (db : List Book) (bookId ownerId : ℕ) : Option Book :=
  db.find? (fun b => b.id == bookId && b.owner == ownerId)

/-- Replace the first element with the given id (mongoose mutates the one
subdocument returned by the collection id accessor, ids being unique). -/
def updateFirstById {α : Type} (getId : α → ℕ) (targetId : ℕ) (f : α → α) :
    List α → List α
  | [] => []
  | e :: es =>
      if getId e = targetId then f e :: es
      else e :: updateFirstById getId targetId f es

/-- Remove the first element with the given id. -/
def removeFirstById {α : Type} (getId : α → ℕ) (targetId : ℕ) : List α → List α
  | [] => []
  | e :: es => if getId e = targetId then es else e :: removeFirstById getId targetId es

/-- Persist a modified document: `book.save()` writes it back over the
stored document with the same id. -/
def saveBook (db : List Book) (b : Book) : List Book :=
  updateFirstById Book.id b.id (fun _ => b) db

/-- The database with every document of the given id removed: the
counterfactual store in which the targeted Book does not exist. -/
def eraseBook (db : List Book) (bookId : ℕ) : List Book :=
  db.filter (fun b => !(b.id == bookId))

/-- Route `GET /books`: all books of the requesting user, newest first. -/
def listBooks (db : List Book) (userId : ℕ) : List Book :=
  (db.filter (fun b => b.owner == userId)).mergeSort
    (fun a b => decide (b.createdAt ≤ a.createdAt))

/-- Outcome of `PATCH /books/:id/progress`. -/
inductive ProgressResult where
  | invalidBookId
  | invalidPage
  | bookNotFound
  | pageExceedsTotal (totalPages : ℕ)
  | ok (page : ℕ) (percent : ℤ)
deriving DecidableEq

/-- Route `PATCH /books/:id/progress`: id-format check, page validation via
`parsePage`, owner-scoped lookup, range check against `totalPages`, then
persist `currentPage` and answer with the page and the percentage. -/
def updateProgress (db : List Book) (userId : ℕ) (rawBookId : Option ℕ)
    (pageValue : JSValue) : ProgressResult × List Book :=
  match rawBookId with
  | none => (.invalidBookId, db)
  | some bookId =>
    match parsePage pageValue with
    | none => (.invalidPage, db)
    | some p =>
      if p < 0 then (.invalidPage, db)
      else
        match findOneByIdOwner db bookId userId with
        | none => (.bookNotFound, db)
        | some book =>
          if 0 < book.totalPages ∧ (book.totalPages : ℤ) < p then
            (.pageExceedsTotal book.totalPages, db)
          else
            let book2 := { book with currentPage := p.toNat }
            (.ok book2.currentPage (progressPercentage book2), saveBook db book2)

/-- Outcome of `POST /books/:id/vocab`. -/
inductive VocabAddResult where
  | invalidBookId
  | missingWord
  | missingDefinition
  | bookNotFound
  | ok (vocabulary : List VocabEntry)
deriving DecidableEq

/-- Route `POST /books/:id/vocab`: both fields required non-empty after
trim; appends the entry and answers with the whole vocabulary array. -/
def addVocab (db : List Book) (userId : ℕ) (rawBookId : Option ℕ)
    (wordValue definitionValue : JSValue) (newEntryId : ℕ) :
    VocabAddResult × List Book :=
  match rawBookId with
  | none => (.invalidBookId, db)
  | some bookId =>
    match parseNonEmptyString wordValue with
    | none => (.missingWord, db)
    | some w =>
      match parseNonEmptyString definitionValue with
      | none => (.missingDefinition, db)
      | some d =>
        match findOneByIdOwner db bookId userId with
        | none => (.bookNotFound, db)
        | some book =>
          let book2 := { book with vocabulary := book.vocabulary ++ [⟨newEntryId, w, d⟩] }
          (.ok book2.vocabulary, saveBook db book2)

/-- Outcome of `PATCH /books/:id/vocab/:vocabId`. -/
inductive VocabUpdateResult where
  | invalidBookId
  | invalidVocabId
  | missingFields
  | bookNotFound
  | vocabNotFound
  | ok (entry : VocabEntry)
deriving DecidableEq

/-- Route `PATCH /books/:id/vocab/:vocabId`: id checks, at-least-one-field
check, owner-scoped lookup, entry lookup, then per-field conditional
assignment and save; answers with the updated entry. -/
def updateVocab (db : List Book) (userId : ℕ) (rawBookId rawVocabId : Option ℕ)
    (wordValue definitionValue : JSValue) : VocabUpdateResult × List Book :=
  match rawBookId with
  | none => (.invalidBookId, db)
  | some bookId =>
    match rawVocabId with
    | none => (.invalidVocabId, db)
    | some vocabId =>
      let word := parseNonEmptyString wordValue
      let defn := parseNonEmptyString definitionValue
      if word = none ∧ defn = none then (.missingFields, db)
      else
        match findOneByIdOwner db bookId userId with
        | none => (.bookNotFound, db)
        | some book =>
          match book.vocabulary.find? (fun e => e.id == vocabId) with
          | none => (.vocabNotFound, db)
          | some entry =>
            let entry2 := { entry with word := word.getD entry.word,
                                       definition := defn.getD entry.definition }
            let book2 := { book with
              vocabulary :=
                updateFirstById VocabEntry.id vocabId (fun _ => entry2) book.vocabulary }
            (.ok entry2, saveBook db book2)

/-- Outcome of `DELETE /books/:id/vocab/:vocabId`. -/
inductive VocabDeleteResult where
  | invalidBookId
  | invalidVocabId
  | bookNotFound
  | vocabNotFound
  | deleted
deriving DecidableEq

/-- Route `DELETE /books/:id/vocab/:vocabId`: removes the one entry. -/
def deleteVocab (db : List Book) (userId : ℕ) (rawBookId rawVocabId : Option ℕ) :
    VocabDeleteResult × List Book :=
  match rawBookId with
  | none => (.invalidBookId, db)
  | some bookId =>
    match rawVocabId with
    | none => (.invalidVocabId, db)
    | some vocabId =>
      match findOneByIdOwner db bookId userId with
      | none => (.bookNotFound, db)
      | some book =>
        match book.vocabulary.find? (fun e => e.id == vocabId) with
        | none => (.vocabNotFound, db)
        | some _ =>
          let book2 := { book with
            vocabulary := removeFirstById VocabEntry.id vocabId book.vocabulary }
          (.deleted, saveBook db book2)

/-- Outcome of `POST /books/:id/notes`. -/
inductive NoteAddResult where
  | invalidBookId
  | missingTitle
  | missingContent
  | bookNotFound
  | ok (note : Note)
deriving DecidableEq

/-- Route `POST /books/:id/notes`: both fields required non-empty after
trim; appends the note (stamping `createdAt`) and answers with it. -/
def addNote (db : List Book) (userId : ℕ) (rawBookId : Option ℕ)
    (titleValue contentValue : JSValue) (newEntryId now : ℕ) :
    NoteAddResult × List Book :=
  match rawBookId with
  | none => (.invalidBookId, db)
  | some bookId =>
    match parseNonEmptyString titleValue with
    | none => (.missingTitle, db)
    | some t =>
      match parseNonEmptyString contentValue with
      | none => (.missingContent, db)
      | some c =>
        match findOneByIdOwner db bookId userId with
        | none => (.bookNotFound, db)
        | some book =>
          let newNote : Note := ⟨newEntryId, t, c, now⟩
          let book2 := { book with notes := book.notes ++ [newNote] }
          (.ok newNote, saveBook db book2)

/-- Outcome of `GET /books/:id/notes`. -/
inductive NotesListResult where
  | invalidBookId
  | bookNotFound
  | ok (notes : List Note)
deriving DecidableEq

/-- Route `GET /books/:id/notes`: owner-scoped read of the notes array. -/
def getNotes (db : List Book) (userId : ℕ) (rawBookId : Option ℕ) :
    NotesListResult :=
  match rawBookId with
  | none => .invalidBookId
  | some bookId =>
    match findOneByIdOwner db bookId userId with
    | none => .bookNotFound
    | some book => .ok book.notes

/-- Outcome of `PATCH /books/:id/notes/:noteId`. -/
inductive NoteUpdateResult where
  | invalidBookId
  | invalidNoteId
  | missingFields
  | bookNotFound
  | noteNotFound
  | ok (note : Note)
deriving DecidableEq

/-- Route `PATCH /books/:id/notes/:noteId`: mirrors the vocabulary update
on the notes collection. -/
def updateNote (db : List Book) (userId : ℕ) (rawBookId rawNoteId : Option ℕ)
    (titleValue contentValue : JSValue) : NoteUpdateResult × List Book :=
  match rawBookId with
  | none => (.invalidBookId, db)
  | some bookId =>
    match rawNoteId with
    | none => (.invalidNoteId, db)
    | some noteId =>
      let title := parseNonEmptyString titleValue
      let content := parseNonEmptyString contentValue
      if title = none ∧ content = none then (.missingFields, db)
      else
        match findOneByIdOwner db bookId userId with
        | none => (.bookNotFound, db)
        | some book =>
          match book.notes.find? (fun e => e.id == noteId) with
          | none => (.noteNotFound, db)
          | some note =>
            let note2 := { note with title := title.getD note.title,
                                     content := content.getD note.content }
            let book2 := { book with
              notes := updateFirstById Note.id noteId (fun _ => note2) book.notes }
            (.ok note2, saveBook db book2)

/-- Outcome of `DELETE /books/:id/notes/:noteId`. -/
inductive NoteDeleteResult where
  | invalidBookId
  | invalidNoteId
  | bookNotFound
  | noteNotFound
  | deleted
deriving DecidableEq

/-- Route `DELETE /books/:id/notes/:noteId`: removes the one note. -/
def deleteNote (db : List Book) (userId : ℕ) (rawBookId rawNoteId : Option ℕ) :
    NoteDeleteResult × List Book :=
  match rawBookId with
  | none => (.invalidBookId, db)
  | some bookId =>
    match rawNoteId with
    | none => (.invalidNoteId, db)
    | some noteId =>
      match findOneByIdOwner db bookId userId with
      | none => (.bookNotFound, db)
      | some book =>
        match book.notes.find? (fun e => e.id == noteId) with
        | none => (.noteNotFound, db)
        | some _ =>
          let book2 := { book with notes := removeFirstById Note.id noteId book.notes }
          (.deleted, saveBook db book2)

/-- Outcome of `DELETE /books/:id`. -/
inductive DeleteBookResult where
  | invalidBookId
  | bookNotFound
  | serverFailure
  | deleted
deriving DecidableEq

/-- External effect performed by the delete-book route, in program order. -/
inductive CloudEffect where
  | destroyBlob (cloudinaryId : String)
  | removeRecord (bookId : ℕ)
deriving DecidableEq

/-- Route `DELETE /books/:id`: owner-scoped lookup, then the Cloudinary
destroy call on the stored blob, then `findByIdAndDelete`. The
`blobDeleteSucceeds` flag is the outcome of the destroy call; when it
throws, the handler answers 500 and the record removal never runs.
The third component records the external effects in the order issued. -/
def deleteBook (db : List Book) (userId : ℕ) (rawBookId : Option ℕ)
    (blobDeleteSucceeds : Bool) : DeleteBookResult × List Book × List CloudEffect :=
  match rawBookId with
  | none => (.invalidBookId, db, [])
  | some bookId =>
    match findOneByIdOwner db bookId userId with
    | none => (.bookNotFound, db, [])
    | some book =>
      if blobDeleteSucceeds then
        (.deleted, removeFirstById Book.id bookId db,
          [.destroyBlob book.cloudinaryId, .removeRecord bookId])
      else
        (.serverFailure, db, [.destroyBlob book.cloudinaryId])

/-- Uploaded multipart file, as exposed by multer after the PDF filter. -/
structure UploadedFile where
  originalname : String
deriving DecidableEq

/-- Result of a successful Cloudinary raw upload. -/
structure CloudUploadResult where
  secureUrl : String
  publicId : String
deriving DecidableEq

/-- Outcome of `POST /upload-book`. -/
inductive UploadResult where
  | missingFile
  | uploadFailed
  | created (book : Book)
deriving DecidableEq

/-- Route `POST /upload-book`: `parseOutcome` is the pdf-parse call —
`Except.error` when the parser throws (caught as a 500), `Except.ok np`
when it resolves, with `np` the `numpages` field as seen by
`Number.isInteger` (`some n` for an integer, `none` otherwise); a
non-integer or absent page count defaults `totalPages` to 0 and a negative
integer is clamped by `Math.max(numpages, 0)`. `cloudOutcome` is the
Cloudinary upload call. -/
def uploadBook (db : List Book) (userId : ℕ) (file : Option UploadedFile)
    (parseOutcome : Except Unit (Option ℤ))
    (cloudOutcome : Except Unit CloudUploadResult)
    (titleValue : JSValue) (newBookId now : ℕ) : UploadResult × List Book :=
  match file with
  | none => (.missingFile, db)
  | some f =>
    match parseOutcome with
    | .error _ => (.uploadFailed, db)
    | .ok numpages =>
      let totalPages : ℕ :=
        match numpages with
        | some n => (max n 0).toNat
        | none => 0
      match cloudOutcome with
      | .error _ => (.uploadFailed, db)
      | .ok r =>
        let title := (parseNonEmptyString titleValue).getD f.originalname
        let newBook : Book :=
          { id := newBookId, title := title, pdfUrl := r.secureUrl,
            cloudinaryId := r.publicId, totalPages := totalPages,
            currentPage := 0, vocabulary := [], notes := [],
            owner := userId, createdAt := now }
        (.created newBook, db ++ [newBook])

/-- User document of the Mongo `users` collection (hashed password). -/
structure User where
  id : ℕ
  email : String
  password : String
deriving DecidableEq

/-- Outcome of `POST /auth/login`: failures carry status and message. -/
inductive LoginResult where
  | failure (status : ℕ) (message : String)
  | ok (userId : ℕ)
deriving DecidableEq

/-- Route `POST /auth/login`: type check on both fields, email
normalization (trim and lowercase), user lookup, bcrypt comparison
(`compareHash plain stored`); the same 400 message answers both a missing
user and a failed comparison. -/
def login (users : List User) (compareHash : String → String → Bool)
    (emailValue passwordValue : JSValue) : LoginResult :=
  match emailValue, passwordValue with
  | .str email, .str password =>
    let normalizedEmail := strLower (strTrim email)
    match users.find? (fun u => u.email == normalizedEmail) with
    | none => .failure 400 "Invalid login credentials."
    | some user =>
      if compareHash password user.password then .ok user.id
      else .failure 400 "Invalid login credentials."
  | _, _ => .failure 400 "Email and password are required."

/-! Helper lemmas about the owner-scoped lookup and list surgery. -/

theorem findOneByIdOwner_eq_none (db : List Book) (bookId u : ℕ)
    (h : ∀ b ∈ db, b.id = bookId → b.owner ≠ u) :
    findOneByIdOwner db bookId u = none := by
  rw [findOneByIdOwner, List.find?_eq_none]
  intro b hb hval
  simp only [Bool.and_eq_true, beq_iff_eq] at hval
  exact h b hb hval.1 hval.2

theorem findOneByIdOwner_eraseBook_self (db : List Book) (bookId u : ℕ) :
    findOneByIdOwner (eraseBook db bookId) bookId u = none := by
  rw [findOneByIdOwner, List.find?_eq_none]
  intro b hb
  rw [eraseBook, List.mem_filter] at hb
  have hne : b.id ≠ bookId := by simpa using hb.2
  simp [hne]

theorem mem_listBooks_owner (db : List Book) (u : ℕ) (b : Book)
    (hb : b ∈ listBooks db u) : b.owner = u := by
  rw [listBooks, List.mem_mergeSort, List.mem_filter] at hb
  simpa using hb.2

theorem findOneByIdOwner_eq_some_self (db : List Book) (book : Book) (u : ℕ)
    (hmem : book ∈ db) (huniq : (db.map Book.id).Nodup) (hown : book.owner = u) :
    findOneByIdOwner db book.id u = some book := by
  induction db with
  | nil => cases hmem
  | cons a as ih =>
    rw [List.map_cons, List.nodup_cons] at huniq
    rcases List.mem_cons.mp hmem with rfl | hmem2
    · rw [findOneByIdOwner, List.find?_cons_of_pos]
      simp [hown]
    · by_cases ha : a.id = book.id
      · exact absurd (ha ▸ List.mem_map_of_mem Book.id hmem2) huniq.1
      · rw [findOneByIdOwner, List.find?_cons_of_neg]
        · simpa [findOneByIdOwner] using ih hmem2 huniq.2
        · simp [ha]

theorem updateFirstById_self_eq {α : Type} (g : α → ℕ) (l : List α) (x : α)
    (hmem : x ∈ l) (huniq : (l.map g).Nodup) :
    updateFirstById g (g x) (fun _ => x) l = l := by
  induction l with
  | nil => rfl
  | cons a as ih =>
    rw [List.map_cons, List.nodup_cons] at huniq
    rcases List.mem_cons.mp hmem with rfl | hmem2
    · rw [updateFirstById, if_pos rfl]
    · by_cases ha : g a = g x
      · exact absurd (ha ▸ List.mem_map_of_mem g hmem2) huniq.1
      · rw [updateFirstById, if_neg ha, ih hmem2 huniq.2]

theorem saveBook_self (db : List Book) (book : Book)
    (hmem : book ∈ db) (huniq : (db.map Book.id).Nodup) :
    saveBook db book = db :=
  updateFirstById_self_eq Book.id db book hmem huniq

theorem updateFirstById_of_find? {α : Type} (g : α → ℕ) (tid : ℕ) (f : α → α)
    (l : List α) (e₀ : α) (hfind : l.find? (fun e => g e == tid) = some e₀) :
    ∃ l₁ l₂, l = l₁ ++ e₀ :: l₂ ∧ (∀ e ∈ l₁, g e ≠ tid) ∧ g e₀ = tid ∧
      updateFirstById g tid f l = l₁ ++ f e₀ :: l₂ := by
  induction l with
  | nil => cases hfind
  | cons a as ih =>
    by_cases ha : g a = tid
    · rw [List.find?_cons_of_pos _ (by simp [ha])] at hfind
      injection hfind with hfind
      subst hfind
      exact ⟨[], as, rfl, by simp, ha, by simp [updateFirstById, ha]⟩
    · rw [List.find?_cons_of_neg _ (by simp [ha])] at hfind
      rcases ih hfind with ⟨l₁, l₂, hdec, hne, he₀, hupd⟩
      exact ⟨a :: l₁, l₂, by rw [hdec, List.cons_append],
        by simpa [ha] using hne, he₀,
        by rw [updateFirstById, if_neg ha, hupd, List.cons_append]⟩

/-- C2: the derived progressPercentage equals round(currentPage / totalPages
* 100) when totalPages > 0, and equals 0 when totalPages = 0 regardless of
currentPage; `round` is the round-half-up function JS `Math.round`
implements on non-negative arguments. -/
theorem progressPercentage_spec (b : Book) :
    (b.totalPages = 0 → progressPercentage b = 0) ∧
    (0 < b.totalPages →
      progressPercentage b = round ((b.currentPage : ℚ) / (b.totalPages : ℚ) * 100)) := by
  constructor
  · intro h
    simp [progressPercentage, h]
  · intro h
    rw [progressPercentage, if_neg h.ne', jsRound, round_eq, Rat.floor_def, Rat.floor_def']

theorem progressPercentage_spec_witness :
    0 < (⟨1, "b", "u", "c", 10, 5, [], [], 1, 0⟩ : Book).totalPages ∧
    progressPercentage ⟨1, "b", "u", "c", 10, 5, [], [], 1, 0⟩
      = round (((⟨1, "b", "u", "c", 10, 5, [], [], 1, 0⟩ : Book).currentPage : ℚ)
          / ((⟨1, "b", "u", "c", 10, 5, [], [], 1, 0⟩ : Book).totalPages : ℚ) * 100) :=
  ⟨by decide, (progressPercentage_spec _).2 (by decide)⟩

/-- C3 counterexample: at a concrete input where the PDF parser throws
(page-count extraction fails), the upload IS failed — the handler answers
the 500 `Upload failed` and creates no Book — contradicting the claim that
a failing extraction is tolerated by defaulting totalPages to 0. -/
theorem upload_parse_throw_counterexample :
    uploadBook [] 1 (some ⟨"file.pdf"⟩) (.error ()) (.ok ⟨"url", "cid"⟩)
      (.str "T") 7 0 = (.uploadFailed, []) := rfl

/-- C3 amended: when the parser resolves but its page count is absent or
not an integer, the upload is not failed and the created Book defaults
totalPages to 0; when the parser itself throws, the upload fails with a
server error and no Book is created. -/
theorem upload_page_count_tolerance (db : List Book) (u : ℕ) (f : UploadedFile)
    (r : CloudUploadResult) (tv : JSValue) (newBookId now : ℕ) :
    (∃ b, uploadBook db u (some f) (.ok none) (.ok r) tv newBookId now
        = (.created b, db ++ [b]) ∧ b.totalPages = 0 ∧ b.currentPage = 0 ∧ b.owner = u)
    ∧ uploadBook db u (some f) (.error ()) (.ok r) tv newBookId now
        = (.uploadFailed, db) := by
  exact ⟨⟨_, rfl, rfl, rfl, rfl⟩, rfl⟩

theorem upload_page_count_tolerance_witness :
    uploadBook [] 3 (some ⟨"a.pdf"⟩) (.error ()) (.ok ⟨"u", "c"⟩) .undef 9 4
      = (.uploadFailed, []) :=
  (upload_page_count_tolerance [] 3 ⟨"a.pdf"⟩ ⟨"u", "c"⟩ .undef 9 4).2

/-- C4: deleteBook on a Book located scoped to its owner issues the blob
destroy before the record removal; on blob-destroy failure it signals a
server failure, the Book record is not removed, and no removal effect is
issued. -/
theorem deleteBook_blob_before_record (db : List Book) (u bid : ℕ) (book : Book)
    (hb : findOneByIdOwner db bid u = some book) :
    deleteBook db u (some bid) true
      = (.deleted, removeFirstById Book.id bid db,
         [.destroyBlob book.cloudinaryId, .removeRecord bid])
    ∧ deleteBook db u (some bid) false
      = (.serverFailure, db, [.destroyBlob book.cloudinaryId]) := by
  constructor <;> simp [deleteBook, hb]

theorem deleteBook_blob_before_record_witness :
    deleteBook [⟨5, "t", "u", "cid", 3, 1, [], [], 2, 0⟩] 2 (some 5) true
      = (.deleted, removeFirstById Book.id 5 [⟨5, "t", "u", "cid", 3, 1, [], [], 2, 0⟩],
         [.destroyBlob "cid", .removeRecord 5])
    ∧ deleteBook [⟨5, "t", "u", "cid", 3, 1, [], [], 2, 0⟩] 2 (some 5) false
      = (.serverFailure, [⟨5, "t", "u", "cid", 3, 1, [], [], 2, 0⟩],
         [.destroyBlob "cid"]) :=
  deleteBook_blob_before_record [⟨5, "t", "u", "cid", 3, 1, [], [], 2, 0⟩] 2 5
    ⟨5, "t", "u", "cid", 3, 1, [], [], 2, 0⟩ (by decide)

/-- C5: updateProgress rejects a page that is not an integer or is
negative; with the Book found and totalPages > 0 it rejects a page above
totalPages; otherwise it persists the new currentPage and answers with the
page and the computed percentage. -/
theorem updateProgress_validation (db : List Book) (u bid : ℕ) (pv : JSValue) :
    ((parsePage pv = none ∨ ∃ p, parsePage pv = some p ∧ p < 0) →
      updateProgress db u (some bid) pv = (.invalidPage, db)) ∧
    (∀ p book, parsePage pv = some p → 0 ≤ p →
      findOneByIdOwner db bid u = some book →
      ((0 < book.totalPages ∧ (book.totalPages : ℤ) < p →
        updateProgress db u (some bid) pv = (.pageExceedsTotal book.totalPages, db)) ∧
       (¬(0 < book.totalPages ∧ (book.totalPages : ℤ) < p) →
        updateProgress db u (some bid) pv =
          (.ok (Int.toNat p) (progressPercentage { book with currentPage := Int.toNat p }),
           saveBook db { book with currentPage := Int.toNat p })))) := by
  constructor
  · rintro (hp | ⟨p, hp, hneg⟩)
    · simp [updateProgress, hp]
    · simp [updateProgress, hp, hneg]
  · intro p book hp hge hfind
    constructor
    · intro hcond
      simp [updateProgress, hp, not_lt.mpr hge, hfind, hcond]
    · intro hcond
      simp [updateProgress, hp, not_lt.mpr hge, hfind, hcond]

theorem updateProgress_validation_witness :
    updateProgress [⟨1, "t", "u", "c", 10, 0, [], [], 1, 0⟩] 1 (some 1) (.num 11)
      = (.pageExceedsTotal 10, [⟨1, "t", "u", "c", 10, 0, [], [], 1, 0⟩]) :=
  ((updateProgress_validation [⟨1, "t", "u", "c", 10, 0, [], [], 1, 0⟩] 1 1
      (.num 11)).2 11 ⟨1, "t", "u", "c", 10, 0, [], [], 1, 0⟩
      (by decide) (by decide) (by decide)).1 (by decide)

/-- C6: a login attempt naming an unregistered email and one naming a
registered email with a wrong password fail with the identical error
message (no account enumeration). -/
theorem login_uniform_failure (users : List User)
    (compareHash : String → String → Bool) (e1 p1 e2 p2 : String) (u2 : User)
    (h1 : users.find? (fun u => u.email == strLower (strTrim e1)) = none)
    (h2 : users.find? (fun u => u.email == strLower (strTrim e2)) = some u2)
    (h3 : compareHash p2 u2.password = false) :
    login users compareHash (.str e1) (.str p1)
      = .failure 400 "Invalid login credentials."
    ∧ login users compareHash (.str e2) (.str p2)
      = .failure 400 "Invalid login credentials."
    ∧ login users compareHash (.str e1) (.str p1)
      = login users compareHash (.str e2) (.str p2) := by
  refine ⟨?_, ?_, ?_⟩ <;> simp [login, h1, h2, h3]

theorem login_uniform_failure_witness :
    login [⟨1, "a@b.c", "hash"⟩] (fun _ _ => false) (.str "x@y.z") (.str "pw1")
      = .failure 400 "Invalid login credentials."
    ∧ login [⟨1, "a@b.c", "hash"⟩] (fun _ _ => false) (.str " A@b.C ") (.str "pw2")
      = .failure 400 "Invalid login credentials."
    ∧ login [⟨1, "a@b.c", "hash"⟩] (fun _ _ => false) (.str "x@y.z") (.str "pw1")
      = login [⟨1, "a@b.c", "hash"⟩] (fun _ _ => false) (.str " A@b.C ") (.str "pw2") :=
  login_uniform_failure [⟨1, "a@b.c", "hash"⟩] (fun _ _ => false)
    "x@y.z" "pw1" " A@b.C " "pw2" ⟨1, "a@b.c", "hash"⟩
    (by decide) (by decide) rfl

/-- C7: updateProgress is idempotent: on an owned Book satisfying the
currentPage-within-totalPages invariant, setting the page to the current
currentPage succeeds with the Book's percentage, leaves the store
unchanged, and a repeated identical call answers the same. -/
theorem updateProgress_idempotent (db : List Book) (u : ℕ) (book : Book)
    (hmem : book ∈ db) (huniq : (db.map Book.id).Nodup) (hown : book.owner = u)
    (hinv : 0 < book.totalPages → book.currentPage ≤ book.totalPages) :
    updateProgress db u (some book.id) (.num book.currentPage)
      = (.ok book.currentPage (progressPercentage book), db)
    ∧ (updateProgress
        ((updateProgress db u (some book.id) (.num book.currentPage)).2)
        u (some book.id) (.num book.currentPage)).1
      = (updateProgress db u (some book.id) (.num book.currentPage)).1 := by
  have hfind : findOneByIdOwner db book.id u = some book :=
    findOneByIdOwner_eq_some_self db book u hmem huniq hown
  have hsave : saveBook db book = db := saveBook_self db book hmem huniq
  have hp : parsePage (.num (book.currentPage : ℚ)) = some (book.currentPage : ℤ) := by
    simp [parsePage, jsToNumber, Rat.den_natCast, Rat.num_natCast]
  have hneg : ¬((book.currentPage : ℤ) < 0) := not_lt.mpr (Int.natCast_nonneg _)
  have hrange : ¬(0 < book.totalPages ∧
      (book.totalPages : ℤ) < (book.currentPage : ℤ)) := by
    rintro ⟨ht, hlt⟩
    have : (book.currentPage : ℤ) ≤ (book.totalPages : ℤ) := by
      exact_mod_cast hinv ht
    exact absurd this (not_le.mpr hlt)
  have hmain : updateProgress db u (some book.id) (.num book.currentPage)
      = (.ok book.currentPage (progressPercentage book), db) := by
    simp only [updateProgress, hp]
    rw [if_neg hneg]
    simp only [hfind]
    rw [if_neg hrange, show saveBook db { book with currentPage := (book.currentPage : ℤ).toNat }
      = db from hsave]
    rfl
  exact ⟨hmain, by rw [hmain]; exact congrArg Prod.fst hmain⟩

theorem updateProgress_idempotent_witness :
    updateProgress [⟨4, "t", "u", "c", 10, 5, [], [], 1, 0⟩] 1 (some 4)
        (.num ((5 : ℕ) : ℚ))
      = (.ok 5 (progressPercentage ⟨4, "t", "u", "c", 10, 5, [], [], 1, 0⟩),
         [⟨4, "t", "u", "c", 10, 5, [], [], 1, 0⟩])
    ∧ (updateProgress
        ((updateProgress [⟨4, "t", "u", "c", 10, 5, [], [], 1, 0⟩] 1 (some 4)
          (.num ((5 : ℕ) : ℚ))).2) 1 (some 4) (.num ((5 : ℕ) : ℚ))).1
      = (updateProgress [⟨4, "t", "u", "c", 10, 5, [], [], 1, 0⟩] 1 (some 4)
          (.num ((5 : ℕ) : ℚ))).1 :=
  updateProgress_idempotent [⟨4, "t", "u", "c", 10, 5, [], [], 1, 0⟩] 1
    ⟨4, "t", "u", "c", 10, 5, [], [], 1, 0⟩ (by decide) (by decide) (by decide) (by decide)

/-- C8: updateVocab updates only the supplied fields of the found entry and
answers with the updated entry; when only word is supplied the definition
is left unchanged; the vocabulary list keeps every sibling entry in place,
only the found entry being rewritten. -/
theorem updateVocab_frame (db : List Book) (u bookId vocabId : ℕ) (book : Book)
    (entry : VocabEntry) (wv dv : JSValue)
    (hb : findOneByIdOwner db bookId u = some book)
    (he : book.vocabulary.find? (fun e => e.id == vocabId) = some entry)
    (hsupplied : ¬(parseNonEmptyString wv = none ∧ parseNonEmptyString dv = none)) :
    (updateVocab db u (some bookId) (some vocabId) wv dv).1
      = .ok { entry with word := (parseNonEmptyString wv).getD entry.word,
                         definition := (parseNonEmptyString dv).getD entry.definition }
    ∧ (parseNonEmptyString dv = none →
        (updateVocab db u (some bookId) (some vocabId) wv dv).1
          = .ok { entry with word := (parseNonEmptyString wv).getD entry.word })
    ∧ ∃ l₁ l₂, book.vocabulary = l₁ ++ entry :: l₂
        ∧ (∀ e ∈ l₁, e.id ≠ vocabId)
        ∧ (updateVocab db u (some bookId) (some vocabId) wv dv).2
          = saveBook db { book with vocabulary :=
              l₁ ++ { entry with
                word := (parseNonEmptyString wv).getD entry.word,
                definition := (parseNonEmptyString dv).getD entry.definition } :: l₂ } := by
  rcases updateFirstById_of_find? VocabEntry.id vocabId
      (fun _ => { entry with word := (parseNonEmptyString wv).getD entry.word,
                             definition := (parseNonEmptyString dv).getD entry.definition })
      book.vocabulary entry he with ⟨l₁, l₂, hdec, hne, _, hupd⟩
  have hcall : updateVocab db u (some bookId) (some vocabId) wv dv
      = (.ok { entry with word := (parseNonEmptyString wv).getD entry.word,
                          definition := (parseNonEmptyString dv).getD entry.definition },
         saveBook db { book with vocabulary :=
           l₁ ++ { entry with
             word := (parseNonEmptyString wv).getD entry.word,
             definition := (parseNonEmptyString dv).getD entry.definition } :: l₂ }) := by
    simp only [updateVocab]
    rw [if_neg hsupplied]
    simp only [hb, he, hupd]
  refine ⟨by rw [hcall], ?_, l₁, l₂, hdec, hne, by rw [hcall]⟩
  intro hd
  rw [hcall, hd]
  simp

theorem updateVocab_frame_witness :
    (updateVocab [⟨2, "t", "u", "c", 9, 1, [⟨3, "old", "keep"⟩, ⟨4, "sib", "s"⟩], [], 6, 0⟩]
        6 (some 2) (some 3) (.str " new ") .undef).1
      = .ok { (⟨3, "old", "keep"⟩ : VocabEntry) with
          word := (parseNonEmptyString (.str " new ")).getD "old",
          definition := (parseNonEmptyString JSValue.undef).getD "keep" } :=
  (updateVocab_frame
    [⟨2, "t", "u", "c", 9, 1, [⟨3, "old", "keep"⟩, ⟨4, "sib", "s"⟩], [], 6, 0⟩]
    6 2 3 ⟨2, "t", "u", "c", 9, 1, [⟨3, "old", "keep"⟩, ⟨4, "sib", "s"⟩], [], 6, 0⟩
    ⟨3, "old", "keep"⟩ (.str " new ") .undef
    (by decide) (by decide) (by decide)).1

/-- C1: ownership isolation. When no Book with the targeted id is owned by
the requesting user, listBooks returns only the user's own Books, and
every id-targeted operation answers exactly as it would on the store with
that Book erased (the attempt is indistinguishable from the Book not
existing) while leaving the store unchanged. -/
theorem ownership_isolation (db : List Book) (userB bookId : ℕ)
    (h : ∀ b ∈ db, b.id = bookId → b.owner ≠ userB) :
    (∀ b ∈ listBooks db userB, b.owner = userB) ∧
    (∀ pv, updateProgress db userB (some bookId) pv
        = ((updateProgress (eraseBook db bookId) userB (some bookId) pv).1, db)) ∧
    (∀ wv dv nid, addVocab db userB (some bookId) wv dv nid
        = ((addVocab (eraseBook db bookId) userB (some bookId) wv dv nid).1, db)) ∧
    (∀ rvid wv dv, updateVocab db userB (some bookId) rvid wv dv
        = ((updateVocab (eraseBook db bookId) userB (some bookId) rvid wv dv).1, db)) ∧
    (∀ rvid, deleteVocab db userB (some bookId) rvid
        = ((deleteVocab (eraseBook db bookId) userB (some bookId) rvid).1, db)) ∧
    (∀ tv cv nid now, addNote db userB (some bookId) tv cv nid now
        = ((addNote (eraseBook db bookId) userB (some bookId) tv cv nid now).1, db)) ∧
    (getNotes db userB (some bookId)
        = getNotes (eraseBook db bookId) userB (some bookId)) ∧
    (∀ rnid tv cv, updateNote db userB (some bookId) rnid tv cv
        = ((updateNote (eraseBook db bookId) userB (some bookId) rnid tv cv).1, db)) ∧
    (∀ rnid, deleteNote db userB (some bookId) rnid
        = ((deleteNote (eraseBook db bookId) userB (some bookId) rnid).1, db)) ∧
    (∀ destroyOk, (deleteBook db userB (some bookId) destroyOk).1
          = (deleteBook (eraseBook db bookId) userB (some bookId) destroyOk).1
        ∧ (deleteBook db userB (some bookId) destroyOk).2.1 = db) := by
  have h1 : findOneByIdOwner db bookId userB = none :=
    findOneByIdOwner_eq_none db bookId userB h
  have h2 : findOneByIdOwner (eraseBook db bookId) bookId userB = none :=
    findOneByIdOwner_eraseBook_self db bookId userB
  refine ⟨fun b hb => mem_listBooks_owner db userB b hb, ?_, ?_, ?_, ?_, ?_, ?_, ?_, ?_, ?_⟩
  · intro pv
    rcases hp : parsePage pv with _ | p
    · simp [updateProgress, hp]
    · by_cases hneg : p < 0
      · simp [updateProgress, hp, hneg]
      · simp [updateProgress, hp, hneg, h1, h2]
  · intro wv dv nid
    rcases hw : parseNonEmptyString wv with _ | w
    · simp [addVocab, hw]
    · rcases hd : parseNonEmptyString dv with _ | d
      · simp [addVocab, hw, hd]
      · simp [addVocab, hw, hd, h1, h2]
  · intro rvid wv dv
    rcases rvid with _ | vid
    · simp [updateVocab]
    · by_cases hmf : parseNonEmptyString wv = none ∧ parseNonEmptyString dv = none
      · simp [updateVocab, hmf]
      · simp [updateVocab, hmf, h1, h2]
  · intro rvid
    rcases rvid with _ | vid
    · simp [deleteVocab]
    · simp [deleteVocab, h1, h2]
  · intro tv cv nid now
    rcases ht : parseNonEmptyString tv with _ | t
    · simp [addNote, ht]
    · rcases hc : parseNonEmptyString cv with _ | c
      · simp [addNote, ht, hc]
      · simp [addNote, ht, hc, h1, h2]
  · simp [getNotes, h1, h2]
  · intro rnid tv cv
    rcases rnid with _ | nid
    · simp [updateNote]
    · by_cases hmf : parseNonEmptyString tv = none ∧ parseNonEmptyString cv = none
      · simp [updateNote, hmf]
      · simp [updateNote, hmf, h1, h2]
  · intro rnid
    rcases rnid with _ | nid
    · simp [deleteNote]
    · simp [deleteNote, h1, h2]
  · intro destroyOk
    constructor <;> simp [deleteBook, h1, h2]

theorem ownership_isolation_witness :
    updateProgress [⟨1, "t", "u", "c", 10, 2, [], [], 7, 0⟩] 2 (some 1) (.num 3)
      = ((updateProgress (eraseBook [⟨1, "t", "u", "c", 10, 2, [], [], 7, 0⟩] 1)
          2 (some 1) (.num 3)).1,
         [⟨1, "t", "u", "c", 10, 2, [], [], 7, 0⟩]) :=
  (ownership_isolation [⟨1, "t", "u", "c", 10, 2, [], [], 7, 0⟩] 2 1
    (by decide)).2.1 (.num 3)

/-- C10: in updateVocab and updateNote a supplied field that is not a
string or trims empty parses as absent; with the other field supplied
non-empty the stored field keeps its old value and no per-field error is
signaled, and the at-least-one-field error occurs exactly when both fields
parse as absent. -/
theorem optional_field_absent_semantics :
    (∀ v : JSValue, parseNonEmptyString v = none ↔
      ((∀ s, v ≠ .str s) ∨ ∃ s, v = .str s ∧ (strTrim s).data = [])) ∧
    (∀ (db : List Book) (u bid vid : ℕ) (wv dv : JSValue),
      (updateVocab db u (some bid) (some vid) wv dv).1 = .missingFields
        ↔ (parseNonEmptyString wv = none ∧ parseNonEmptyString dv = none)) ∧
    (∀ (db : List Book) (u bid nid : ℕ) (tv cv : JSValue),
      (updateNote db u (some bid) (some nid) tv cv).1 = .missingFields
        ↔ (parseNonEmptyString tv = none ∧ parseNonEmptyString cv = none)) ∧
    (∀ (db : List Book) (u bid vid : ℕ) (book : Book) (entry : VocabEntry)
        (wv dv : JSValue) (d : String),
      findOneByIdOwner db bid u = some book →
      book.vocabulary.find? (fun e => e.id == vid) = some entry →
      parseNonEmptyString wv = none → parseNonEmptyString dv = some d →
      (updateVocab db u (some bid) (some vid) wv dv).1
        = .ok { entry with definition := d }) ∧
    (∀ (db : List Book) (u bid nid : ℕ) (book : Book) (note : Note)
        (tv cv : JSValue) (c : String),
      findOneByIdOwner db bid u = some book →
      book.notes.find? (fun e => e.id == nid) = some note →
      parseNonEmptyString tv = none → parseNonEmptyString cv = some c →
      (updateNote db u (some bid) (some nid) tv cv).1
        = .ok { note with content := c }) := by
  refine ⟨?_, ?_, ?_, ?_, ?_⟩
  · intro v
    rcases v with q | s | b | _ | _
    · simp [parseNonEmptyString]
    · constructor
      · intro hp
        refine .inr ⟨s, rfl, ?_⟩
        by_contra hne
        rw [parseNonEmptyString] at hp
        rw [if_neg (by simpa [List.isEmpty_iff] using hne)] at hp
        cases hp
      · rintro (hne | ⟨s2, hs2, hemp⟩)
        · exact absurd rfl (hne s)
        · injection hs2 with hs2
          subst hs2
          simp [parseNonEmptyString, List.isEmpty_iff, hemp]
    · simp [parseNonEmptyString]
    · simp [parseNonEmptyString]
    · simp [parseNonEmptyString]
  · intro db u bid vid wv dv
    by_cases hmf : parseNonEmptyString wv = none ∧ parseNonEmptyString dv = none
    · simp only [updateVocab]
      rw [if_pos hmf]
      simpa using hmf
    · simp only [updateVocab]
      rw [if_neg hmf]
      rcases hf : findOneByIdOwner db bid u with _ | book
      · simpa [hf] using hmf
      · rcases he : book.vocabulary.find? (fun e => e.id == vid) with _ | entry
        · simpa [hf, he] using hmf
        · simpa [hf, he] using hmf
  · intro db u bid nid tv cv
    by_cases hmf : parseNonEmptyString tv = none ∧ parseNonEmptyString cv = none
    · simp only [updateNote]
      rw [if_pos hmf]
      simpa using hmf
    · simp only [updateNote]
      rw [if_neg hmf]
      rcases hf : findOneByIdOwner db bid u with _ | book
      · simpa [hf] using hmf
      · rcases he : book.notes.find? (fun e => e.id == nid) with _ | note
        · simpa [hf, he] using hmf
        · simpa [hf, he] using hmf
  · intro db u bid vid book entry wv dv d hf he hw hd
    simp only [updateVocab]
    rw [if_neg (by simp [hd])]
    simp only [hf, he, hw, hd]
    rfl
  · intro db u bid nid book note tv cv c hf he ht hc
    simp only [updateNote]
    rw [if_neg (by simp [hc])]
    simp only [hf, he, ht, hc]
    rfl

theorem optional_field_absent_semantics_witness :
    (updateVocab [⟨8, "t", "u", "c", 9, 1, [⟨5, "word0", "def0"⟩], [], 3, 0⟩]
        3 (some 8) (some 5) (.num 42) (.str " def1 ")).1
      = .ok { (⟨5, "word0", "def0"⟩ : VocabEntry) with definition := "def1" } :=
  optional_field_absent_semantics.2.2.2.1
    [⟨8, "t", "u", "c", 9, 1, [⟨5, "word0", "def0"⟩], [], 3, 0⟩]
    3 8 5 ⟨8, "t", "u", "c", 9, 1, [⟨5, "word0", "def0"⟩], [], 3, 0⟩
    ⟨5, "word0", "def0"⟩ (.num 42) (.str " def1 ") "def1"
    (by decide) (by decide) (by decide) (by decide)

end EbookTracker
